import Mathlib

/-!
Verification of the `ga` genetic-algorithm package (MLGeneticAlgorithm).

The Go sources are shallowly embedded as follows.

* `float64` values are idealized as exact real numbers (`ℝ`) where square
  roots occur (TSP fitness), and as exact rationals (`ℚ`) where only
  comparisons and field arithmetic occur (configuration rates, random
  `Float64()` draws, mock fitness values).  Every concrete value appearing
  in a theorem below is exactly representable, and every arithmetic step is
  exact in IEEE double precision, so the idealization decides each claim the
  same way the Go program does.
* A `*rand.Rand` stream is modelled as an explicit list of draws that is
  consumed from the front: `rand.Intn(n)` takes the head modulo `n`
  (`drawInt`), `rand.Float64()` takes the head of a rational stream
  (`drawFloat`).  The engine-owned stream (`ga.rng`) and the process-global
  stream (`math/rand` top-level functions, used by `tsp.go`) are separate
  streams; the global stream is threaded through every operation that the Go
  code lets touch it.
* Interface values that may be `nil` (`[]Chromosome` entries) are modelled
  with `Option`.  Go's dynamic type assertion in `TSPChromosome.Crossover`
  is modelled by a closed sum `GoChromosome` of the chromosome types that
  exist in this repository, with assertion failure (panic) as an explicit
  outcome.
* `sort.Slice` (descending by fitness) is modelled by insertion sort
  descending by fitness.  No claim below depends on which order a correct
  descending sort puts equal-fitness entries in.
-/

namespace MLGA

/-- A city of the TSP instance (`ga.City`): a name and 2-D coordinates. -/
structure City where
  name : String
  x : ℚ
  y : ℚ
  deriving DecidableEq, Repr

/-- Model of `rand.Intn n` on an explicit stream of draws: consume the head
reduced modulo `n`; an exhausted stream yields `0`. -/
def drawInt (s : List Nat) (n : Nat) : Nat × List Nat :=
  match s with
  | [] => (0, [])
  | v :: rest => (v % n, rest)

/-- Model of `rand.Float64 ()` on an explicit stream of rational draws. -/
def drawFloat (s : List ℚ) : ℚ × List ℚ :=
  match s with
  | [] => (0, [])
  | v :: rest => (v, rest)

/-- Go's zero value for `City` (`make([]City, n)` fills with this). -/
def cityZero : City := ⟨"", 0, 0⟩

/-- The segment-copy loop of `TSPChromosome.Crossover`:
`for i := start; i <= end; i++ { childRoute[i] = parent1[i] }`,
written as a fold over the index list `[start, ..., end]`. -/
def segmentWrite (p1 : List City) (s e : Nat) (child : List City) : List City :=
  (List.range' s (e + 1 - s)).foldl (fun ch i => ch.set i (p1.getD i cityZero)) child

/-- The names marked as used (`inChild`) by `TSPChromosome.Crossover`:
the names of `parent1[start..end]`. -/
def segmentNames (p1 : List City) (s e : Nat) : List String :=
  (List.range' s (e + 1 - s)).map (fun i => (p1.getD i cityZero).name)

/-- The fill loop of `TSPChromosome.Crossover`: walk `parent2` starting
right after `end` (wrapping), writing each not-yet-used city at
`childIndex` and advancing `childIndex` modulo the length. -/
def fillLoop (p2 : List City) (e : Nat) (used : List String) (n : Nat)
    (init : List City × Nat) : List City × Nat :=
  (List.range n).foldl
    (fun st i =>
      let city := p2.getD ((e + 1 + i) % n) cityZero
      if used.contains city.name then st
      else (st.1.set st.2 city, (st.2 + 1) % n))
    init

/-- The order-crossover core of `TSPChromosome.Crossover` for already
ordered cut indices `s ≤ e` (lines 58-84 of `tsp.go`). -/
def ox1 (p1 p2 : List City) (s e : Nat) : List City :=
  let n := p1.length
  let child0 := segmentWrite p1 s e (List.replicate n cityZero)
  let used := segmentNames p1 s e
  (fillLoop p2 e used n (child0, (e + 1) % n)).1

/-- `TSPChromosome.Crossover` restricted to a `*TSPChromosome` argument:
degenerate copy-of-parent1 on length mismatch or length `< 2`, otherwise
two cut draws from the process-global random stream, swapped into order,
then `ox1`.  Returns the child route and the remaining global stream. -/
def crossoverRoute (p1 p2 : List City) (g : List Nat) : List City × List Nat :=
  if p1.length ≠ p2.length ∨ p1.length < 2 then (p1, g)
  else
    let d1 := drawInt g p1.length
    let d2 := drawInt d1.2 p1.length
    let start := d1.1
    let stop := d2.1
    let s := if start > stop then stop else start
    let e := if start > stop then start else stop
    (ox1 p1 p2 s e, d2.2)

/-- The concrete `ga.Chromosome` implementations present in this
repository: `*TSPChromosome` (tsp.go), `*MockChromosome` (ga_test.go) and
`*OneMaxChromosome` (main.go). -/
inductive GoChromosome where
  | tsp (route : List City)
  | mock (fitness : ℚ)
  | onemax (genes : List Bool)
  deriving DecidableEq

/-- The three possible control-flow outcomes of `TSPChromosome.Crossover`
on a dynamically typed argument: the unchecked type assertion
`other.(*TSPChromosome)` panics on any other concrete type; otherwise
either the degenerate fallback copy or the OX1 path runs. -/
inductive CrossoverOutcome where
  | panics
  | fallback (route : List City)
  | ox (route : List City) (g : List Nat)
  deriving DecidableEq

/-- `TSPChromosome.Crossover` with its dynamic type assertion made
explicit: the receiver has route `p1`, the argument is any repository
chromosome, `g` is the process-global random stream. -/
def crossoverDyn (p1 : List City) (other : GoChromosome) (g : List Nat) :
    CrossoverOutcome :=
  match other with
  | .tsp p2 =>
      if p1.length ≠ p2.length ∨ p1.length < 2 then .fallback p1
      else
        let r := crossoverRoute p1 p2 g
        .ox r.1 r.2
  | _ => .panics

/-- The retry loop of `TSPChromosome.Mutate` (`for i == j { j = rand.Intn(...) }`):
keep drawing until the draw differs from `i`.  On our finite draw lists
the loop is bounded by the remaining stream length plus one; Go's loop
terminates with probability 1. -/
def drawNe (i n : Nat) : List Nat → Nat → Nat × List Nat
  | g, 0 => (i, g)
  | g, fuel + 1 =>
      let d := drawInt g n
      if d.1 = i then drawNe i n d.2 fuel else (d.1, d.2)

/-- `TSPChromosome.Mutate` (tsp.go lines 88-102): swap two distinct random
positions; no-op on routes shorter than 2.  Draws come from the
process-global stream. -/
def tspMutate (r : List City) (g : List Nat) : List City × List Nat :=
  if r.length < 2 then (r, g)
  else
    let di := drawInt g r.length
    let dj := drawNe di.1 r.length di.2 (di.2.length + 1)
    ((r.set di.1 (r.getD dj.1 cityZero)).set dj.1 (r.getD di.1 cityZero), dj.2)

/-- Euclidean distance between two cities (`tsp.go`, `distance`):
`math.Sqrt(dx*dx + dy*dy)`, idealized over the reals. -/
noncomputable def distance (c1 c2 : City) : ℝ :=
  Real.sqrt (((c1.x : ℝ) - (c2.x : ℝ)) * ((c1.x : ℝ) - (c2.x : ℝ)) +
    ((c1.y : ℝ) - (c2.y : ℝ)) * ((c1.y : ℝ) - (c2.y : ℝ)))

/-- The total closed-tour distance accumulated by `TSPChromosome.Fitness`:
the legs between consecutive points, then the leg back to the start. -/
noncomputable def totalDistance (r : List City) : ℝ :=
  (List.range (r.length - 1)).foldl
    (fun acc i => acc + distance (r.getD i cityZero) (r.getD (i + 1) cityZero)) 0
    + distance (r.getD (r.length - 1) cityZero) (r.getD 0 cityZero)

/-- `TSPChromosome.Fitness` (tsp.go lines 21-36): `0` for routes shorter
than 2, `0` when the total distance is `0` (the guard before the
division), else the reciprocal of the total distance. -/
noncomputable def tspFitness (r : List City) : ℝ :=
  if r.length < 2 then 0
  else if totalDistance r = 0 then 0
  else 1 / totalDistance r

/-! ### The generational engine (`ga.go`) -/

/-- Insertion of one element into a fitness-descending sorted list; with
`sortPop` this models `sort.Slice(pop, func(i,j) = fitness i > fitness j)`. -/
def insertDesc {α β : Type} [LinearOrder β] (fit : α → β) (a : α) :
    List α → List α
  | [] => [a]
  | b :: l => if fit a < fit b then b :: insertDesc fit a l else a :: b :: l

/-- Descending sort of the population by fitness. -/
def sortPop {α β : Type} [LinearOrder β] (fit : α → β) : List α → List α
  | [] => []
  | a :: l => insertDesc fit a (sortPop fit l)

/-- The inner loop of one tournament (`TournamentSelector.Select`,
lines 406-412): `k` competitor draws after the seeding draw, keeping the
strictly fitter competitor each time. -/
def tournRounds {α β : Type} [LinearOrder β] [Inhabited α] (fit : α → β)
    (pop : List α) : α → Nat → List Nat → α × List Nat
  | best, 0, ints => (best, ints)
  | best, k + 1, ints =>
      let d := drawInt ints pop.length
      let comp := pop.getD d.1 default
      tournRounds fit pop (if fit best < fit comp then comp else best) k d.2

/-- The tournament-size sanitization of `TournamentSelector.Select`
(ga.go lines 394-401): non-positive sizes default to 2, then the size is
clamped to the population size. -/
def clampSize (size : Int) (n : Nat) : Int :=
  let ts0 : Int := if size ≤ 0 then 2 else size
  if ts0 > (n : Int) then (n : Int) else ts0

/-- `TournamentSelector.Select` (ga.go lines 389-416): an empty population
yields no parents; otherwise the configured size is defaulted to 2 when
non-positive, clamped to the population size, and two tournament winners
are returned together with the remaining engine stream. -/
def tournamentSelect {α β : Type} [LinearOrder β] [Inhabited α]
    (fit : α → β) (size : Int) (pop : List α) (ints : List Nat) :
    List α × List Nat :=
  if pop.length = 0 then ([], ints)
  else
    let ts := clampSize size pop.length
    let d1 := drawInt ints pop.length
    let r1 := tournRounds fit pop (pop.getD d1.1 default) (ts.toNat - 1) d1.2
    let d2 := drawInt r1.2 pop.length
    let r2 := tournRounds fit pop (pop.getD d2.1 default) (ts.toNat - 1) d2.2
    ([r1.1, r2.1], r2.2)

/-- The engine data read inside `GA.Run`'s loop: the candidate-contract
operations (crossover and mutation may consume the process-global stream,
as the `tsp.go` operators do), the configured tournament size, and the
configuration fields. -/
structure EngineParams (α β : Type) where
  fit : α → β
  cross : α → α → List Nat → α × List Nat
  mutOp : α → List Nat → α × List Nat
  tsize : Int
  mutationRate : ℚ
  crossoverRate : ℚ
  elitism : Bool
  convGens : Int
  convThreshold : β

/-- The loop state of `GA.Run`: the population, the best-so-far tracker,
the two locals of the convergence tracker, the engine-owned random stream
(int and float draws), and the process-global stream. -/
structure RunState (α β : Type) where
  pop : List α
  best : Option α
  lastBest : β
  noImp : Nat
  ints : List Nat
  floats : List ℚ
  gints : List Nat
  deriving DecidableEq

/-- One iteration of the reproduction loop (ga.go lines 322-352): select
two parents by tournament, decide crossover with one engine `Float64`
draw, combine the parents (or the first parent with itself as the clone
path), decide mutation with another engine draw, possibly mutate. -/
def breedOne {α β : Type} [LinearOrder β] [Inhabited α]
    (ep : EngineParams α β) (pop : List α)
    (ints : List Nat) (floats : List ℚ) (g : List Nat) :
    α × List Nat × List ℚ × List Nat :=
  let sel := tournamentSelect ep.fit ep.tsize pop ints
  let p0 := sel.1.getD 0 default
  let p1 := sel.1.getD 1 default
  let f1 := drawFloat floats
  let oc := if f1.1 < ep.crossoverRate then ep.cross p0 p1 g else ep.cross p0 p0 g
  let f2 := drawFloat f1.2
  let om := if f2.1 < ep.mutationRate then ep.mutOp oc.1 oc.2 else (oc.1, oc.2)
  (om.1, sel.2, f2.2, om.2)

/-- The reproduction loop producing `k` offspring in slot order. -/
def breedLoop {α β : Type} [LinearOrder β] [Inhabited α]
    (ep : EngineParams α β) (pop : List α) :
    Nat → List Nat → List ℚ → List Nat → List α × List Nat × List ℚ × List Nat
  | 0, ints, floats, g => ([], ints, floats, g)
  | k + 1, ints, floats, g =>
      let o := breedOne ep pop ints floats g
      let r := breedLoop ep pop k o.2.1 o.2.2.1 o.2.2.2
      (o.1 :: r.1, r.2)

/-- Build the next generation (ga.go lines 311-354): with elitism the
best-so-far candidate is seated directly at slot 0, and the remaining
slots are bred; replacement is 1:1 with the sorted population. -/
def buildNext {α β : Type} [LinearOrder β] [Inhabited α]
    (ep : EngineParams α β) (sorted : List α) (best' : α)
    (lastBest' : β) (noImp' : Nat) (st : RunState α β) : RunState α β :=
  let eliteCount := if ep.elitism then 1 else 0
  let bred := breedLoop ep sorted (sorted.length - eliteCount) st.ints st.floats st.gints
  { pop := (if ep.elitism then [best'] else []) ++ bred.1
    best := some best'
    lastBest := lastBest'
    noImp := noImp'
    ints := bred.2.1
    floats := bred.2.2.1
    gints := bred.2.2.2 }

/-- Outcome of one generation: either the loop continues with the next
state, or the convergence check returned early out of `Run`. -/
inductive StepOut (α β : Type) where
  | next (st : RunState α β)
  | converged (st : RunState α β)
  deriving DecidableEq

/-- The state carried by either outcome. -/
def outState {α β : Type} : StepOut α β → RunState α β
  | .next st => st
  | .converged st => st

/-- Whether the generation continued (did not trigger early convergence). -/
def isNext {α β : Type} : StepOut α β → Bool
  | .next _ => true
  | .converged _ => false

/-- One generation of `GA.Run` (loop body, ga.go lines 274-355): sort the
population descending by fitness, update the best-so-far tracker on
strict improvement, do the convergence bookkeeping (the baseline
`lastBestFitness` is written after the branch, so it is updated on both
the improving and the continuing non-improving path, and the early-return
path leaves it dead), then build the next generation. -/
def gaStep {α β : Type} [LinearOrderedField β] [Inhabited α]
    (ep : EngineParams α β) (st : RunState α β) : StepOut α β :=
  match sortPop ep.fit st.pop with
  | [] => .next st
  | top :: rest =>
      let sorted := top :: rest
      let curBest := ep.fit top
      let best' : α :=
        match st.best with
        | none => top
        | some b => if ep.fit b < curBest then top else b
      if 0 < ep.convGens then
        if ep.convThreshold < curBest - st.lastBest then
          .next (buildNext ep sorted best' curBest 0 st)
        else if ep.convGens ≤ ((st.noImp + 1 : Nat) : Int) then
          .converged { st with pop := sorted, best := some best' }
        else
          .next (buildNext ep sorted best' curBest (st.noImp + 1) st)
      else
        .next (buildNext ep sorted best' st.lastBest st.noImp st)

/-- The generation loop of `GA.Run`, iterated for the configured budget or
until the convergence check returns early. -/
def runLoop {α β : Type} [LinearOrderedField β] [Inhabited α]
    (ep : EngineParams α β) : Nat → RunState α β → RunState α β
  | 0, st => st
  | k + 1, st =>
      match gaStep ep st with
      | .next st' => runLoop ep k st'
      | .converged st' => st'

/-- The distinct configuration failures that `GA.Validate` reports. -/
inductive ValidationError where
  | emptyPopulation
  | badGenerations
  | badMutationRate
  | badCrossoverRate
  | nilSelector
  | nilChromosome (index : Nat)
  deriving DecidableEq

/-- The configured engine (`ga.GA`): population entries may be nil
(`Option`), the selector field holds the tournament size when configured
(the repository's only `Selector`), `bestChromosome` is the best-so-far
tracker, and the engine-owned random stream is the pair of draw lists. -/
structure GAModel (α β : Type) where
  population : List (Option α)
  generations : Int
  mutationRate : ℚ
  crossoverRate : ℚ
  elitism : Bool
  selector : Option Int
  bestChromosome : Option α
  rngInts : List Nat
  rngFloats : List ℚ
  convergenceGenerations : Int
  convergenceThreshold : β

/-- The nil-chromosome scan of `GA.Validate` (ga.go lines 140-144). -/
def findNilIdx {α : Type} : List (Option α) → Nat → Option Nat
  | [], _ => none
  | none :: _, i => some i
  | some _ :: rest, i => findNilIdx rest (i + 1)

/-- `GA.Validate` (ga.go lines 118-147), checks in source order. -/
def validate {α β : Type} (ga : GAModel α β) : Option ValidationError :=
  if ga.population.length = 0 then some .emptyPopulation
  else if ga.generations < 1 then some .badGenerations
  else if ga.mutationRate < 0 ∨ 1 < ga.mutationRate then some .badMutationRate
  else if ga.crossoverRate < 0 ∨ 1 < ga.crossoverRate then some .badCrossoverRate
  else if ga.selector.isNone then some .nilSelector
  else
    match findNilIdx ga.population 0 with
    | some i => some (.nilChromosome i)
    | none => none

/-- `GA.Run` (ga.go lines 265-358): validate (returning the wrapped
validation failure with the engine untouched), otherwise iterate the
generation loop with the convergence locals starting at zero.  Takes the
candidate operations and the process-global stream, and returns the
error, the updated engine, and the leftover global stream. -/
def run {α β : Type} [LinearOrderedField β] [Inhabited α]
    (fit : α → β) (cross : α → α → List Nat → α × List Nat)
    (mutOp : α → List Nat → α × List Nat)
    (ga : GAModel α β) (g : List Nat) :
    Option ValidationError × GAModel α β × List Nat :=
  match validate ga with
  | some e => (some e, ga, g)
  | none =>
      let ep : EngineParams α β :=
        { fit := fit
          cross := cross
          mutOp := mutOp
          tsize := ga.selector.getD 2
          mutationRate := ga.mutationRate
          crossoverRate := ga.crossoverRate
          elitism := ga.elitism
          convGens := ga.convergenceGenerations
          convThreshold := ga.convergenceThreshold }
      let st0 : RunState α β :=
        { pop := ga.population.reduceOption
          best := ga.bestChromosome
          lastBest := 0
          noImp := 0
          ints := ga.rngInts
          floats := ga.rngFloats
          gints := g }
      let st := runLoop ep ga.generations.toNat st0
      (none,
       { ga with
          population := st.pop.map some
          bestChromosome := st.best
          rngInts := st.ints
          rngFloats := st.floats },
       st.gints)

/-- Two engines constructed with identical configuration and identical
seed (hence equal as `GAModel` values), run one after the other in the
same process: the second `Run` starts from whatever process-global stream
state the first `Run` left behind. -/
def runTwice {α β : Type} [LinearOrderedField β] [Inhabited α]
    (fit : α → β) (cross : α → α → List Nat → α × List Nat)
    (mutOp : α → List Nat → α × List Nat)
    (ga : GAModel α β) (g : List Nat) :
    (Option ValidationError × GAModel α β × List Nat) ×
      (Option ValidationError × GAModel α β × List Nat) :=
  let r1 := run fit cross mutOp ga g
  (r1, run fit cross mutOp ga r1.2.2)

/-- Candidate operations that never touch the process-global random
stream (`MockChromosome`'s operations are of this shape; `tsp.go`'s are
not). -/
def GlobalFree {α : Type} (cross : α → α → List Nat → α × List Nat)
    (mutOp : α → List Nat → α × List Nat) : Prop :=
  (∀ a b g, cross a b g = ((cross a b []).1, g)) ∧
  (∀ a g, mutOp a g = ((mutOp a []).1, g))

/-! ### Proof-layer helpers and concrete instances -/

/-- Sequential wrap-around writes: the unconditional write loop that the
fill loop of `ox1` performs on the cities it keeps. -/
def writeSeq (n : Nat) : List City → List City × Nat → List City × Nat
  | [], st => st
  | c :: cs, st => writeSeq n cs (st.1.set st.2 c, (st.2 + 1) % n)

/-- `MockChromosome.Crossover` (ga_test.go): the offspring's fitness is
the mean of the parents'; no random stream is read. -/
def mockCross (a b : ℚ) (g : List Nat) : ℚ × List Nat := ((a + b) / 2, g)

/-- `MockChromosome.Mutate` (ga_test.go): add 0.1; no stream is read. -/
def mockMutate (a : ℚ) (g : List Nat) : ℚ × List Nat := (a + 1 / 10, g)

/-- The four cities of the 3×4 rectangle used in the concrete run below:
all six pairwise distances (3, 4 and 5) are exact in `float64`. -/
def cityA : City := ⟨"A", 0, 0⟩

/-- See `cityA`. -/
def cityB : City := ⟨"B", 3, 0⟩

/-- See `cityA`. -/
def cityC : City := ⟨"C", 0, 4⟩

/-- See `cityA`. -/
def cityD : City := ⟨"D", 3, 4⟩

/-- A TSP engine configuration mirroring the repository's usage: two
route candidates, two generations, elitism, crossover rate 0.8, mutation
rate 0, default tournament selector, an explicit seed (the engine draw
lists), no convergence window. -/
noncomputable def tspCfg : GAModel (List City) ℝ :=
  { population := [some [cityA, cityB, cityC, cityD], some [cityA, cityD, cityB, cityC]]
    generations := 2
    mutationRate := 0
    crossoverRate := 4 / 5
    elitism := true
    selector := some 2
    bestChromosome := none
    rngInts := [1, 1, 0, 0, 1, 1, 0, 0]
    rngFloats := [1 / 2, 9 / 10, 1 / 2, 9 / 10]
    convergenceGenerations := 0
    convergenceThreshold := 0 }

/-- The engine parameters that `run` derives from `tspCfg` (definitionally
equal to the block built inside `run`). -/
noncomputable def tspEP : EngineParams (List City) ℝ :=
  { fit := tspFitness
    cross := crossoverRoute
    mutOp := tspMutate
    tsize := 2
    mutationRate := 0
    crossoverRate := 4 / 5
    elitism := true
    convGens := 0
    convThreshold := 0 }

/-- The initial loop state that `run` derives from `tspCfg` and a given
process-global stream (definitionally equal to the block built inside
`run`). -/
def tspSt0 (g : List Nat) : RunState (List City) ℝ :=
  { pop := [[cityA, cityB, cityC, cityD], [cityA, cityD, cityB, cityC]]
    best := none
    lastBest := 0
    noImp := 0
    ints := [1, 1, 0, 0, 1, 1, 0, 0]
    floats := [1 / 2, 9 / 10, 1 / 2, 9 / 10]
    gints := g }

/-- The oversized configuration of `TestValidatePopulationSizeLimit`
(ga_test.go lines 371-396): 150000 valid mock chromosomes, generation
budget 10, default rates and selector. -/
def oversizedGA : GAModel ℚ ℚ :=
  { population := List.replicate 150000 (some 1)
    generations := 10
    mutationRate := 1 / 100
    crossoverRate := 4 / 5
    elitism := true
    selector := some 2
    bestChromosome := none
    rngInts := []
    rngFloats := []
    convergenceGenerations := 0
    convergenceThreshold := 0 }

/-- A mock engine parameter block with a convergence window of 3
generations and threshold 10 (fitness of a `MockChromosome` is its
field, so `fit` is the identity). -/
def mockParams : EngineParams ℚ ℚ :=
  { fit := id
    cross := mockCross
    mutOp := mockMutate
    tsize := 2
    mutationRate := 1 / 100
    crossoverRate := 4 / 5
    elitism := true
    convGens := 3
    convThreshold := 10 }

/-- A concrete loop state: one mock candidate of fitness 5.5, baseline 0,
counter 0. -/
def convState : RunState ℚ ℚ :=
  { pop := [11 / 2]
    best := none
    lastBest := 0
    noImp := 0
    ints := [0, 0, 0, 0]
    floats := [1 / 2, 9 / 10]
    gints := [] }

/-- An engine over an empty population (every other field as `New` sets
it by default). -/
def emptyGA : GAModel ℚ ℚ :=
  { population := []
    generations := 100
    mutationRate := 1 / 100
    crossoverRate := 4 / 5
    elitism := true
    selector := some 2
    bestChromosome := none
    rngInts := []
    rngFloats := []
    convergenceGenerations := 0
    convergenceThreshold := 0 }

/-! ### Shared lemmas -/

theorem findNilIdx_replicate_some {α : Type} (c : α) :
    ∀ n i, findNilIdx (List.replicate n (some c)) i = none := by
  intro n
  induction n with
  | zero => intro i; rfl
  | succ k ih => intro i; simpa [List.replicate_succ, findNilIdx] using ih (i + 1)

theorem findNilIdx_none_all_isSome {α : Type} :
    ∀ (l : List (Option α)) (i : Nat), findNilIdx l i = none →
      ∀ x ∈ l, x.isSome = true := by
  intro l
  induction l with
  | nil => simp
  | cons x rest ih =>
      intro i h y hy
      cases x with
      | none => simp [findNilIdx] at h
      | some c =>
          rcases List.mem_cons.mp hy with hy | hy
          · rw [hy]; rfl
          · exact ih (i + 1) (by simpa [findNilIdx] using h) y hy

theorem reduceOption_length_of_all_isSome {α : Type} :
    ∀ l : List (Option α), (∀ x ∈ l, x.isSome = true) →
      l.reduceOption.length = l.length := by
  intro l
  induction l with
  | nil => simp
  | cons x rest ih =>
      intro h
      cases x with
      | none => simpa using h none (by simp)
      | some c =>
          simp only [List.reduceOption_cons_of_some, List.length_cons]
          rw [ih (fun y hy => h y (by simp [hy]))]

theorem validate_none_all_isSome {α β : Type} (ga : GAModel α β)
    (h : validate ga = none) : ∀ x ∈ ga.population, x.isSome = true := by
  unfold validate at h
  split at h
  · exact absurd h (by simp)
  · split at h
    · exact absurd h (by simp)
    · split at h
      · exact absurd h (by simp)
      · split at h
        · exact absurd h (by simp)
        · split at h
          · exact absurd h (by simp)
          · split at h
            · exact absurd ‹some _ = none› (by simp)
            · exact findNilIdx_none_all_isSome ga.population 0 ‹_›

/-! ### C10: dynamic typing of `TSPChromosome.Crossover` -/

/-- **C10.** `TSPChromosome.Crossover`'s degenerate copy-of-first-parent
fallback is taken exactly when the argument is itself a `*TSPChromosome`
whose route length differs from the receiver's or whose receiver route is
shorter than 2; for an argument of any other concrete chromosome type the
unchecked type assertion panics instead of degrading gracefully. -/
theorem crossover_dynamic_typing (p1 : List City) (other : GoChromosome)
    (g : List Nat) :
    (∀ p2, other = .tsp p2 →
      (crossoverDyn p1 other g = .fallback p1 ↔
        p1.length ≠ p2.length ∨ p1.length < 2)) ∧
    ((∀ p2, other ≠ .tsp p2) ↔ crossoverDyn p1 other g = .panics) := by
  constructor
  · rintro p2 rfl
    constructor
    · intro h
      by_contra hc
      rw [crossoverDyn, if_neg hc] at h
      exact CrossoverOutcome.noConfusion h
    · intro h
      rw [crossoverDyn, if_pos h]
  · cases other with
    | tsp p2 =>
        constructor
        · intro h; exact absurd rfl (h p2)
        · intro h
          rw [crossoverDyn] at h
          split at h
          · exact CrossoverOutcome.noConfusion h
          · exact CrossoverOutcome.noConfusion h
    | mock q => simp [crossoverDyn]
    | onemax b => simp [crossoverDyn]

/-- Witness for C10 at concrete inputs: a mock argument panics, a
mismatched TSP argument takes the fallback. -/
theorem crossover_dynamic_typing_witness :
    crossoverDyn [cityA, cityB] (.mock 1) [] = .panics ∧
    crossoverDyn [cityA, cityB] (.tsp [cityA]) [] = .fallback [cityA, cityB] := by
  constructor
  · exact (crossover_dynamic_typing [cityA, cityB] (.mock 1) []).2.mp
      (by intro p2 h; exact GoChromosome.noConfusion h)
  · exact ((crossover_dynamic_typing [cityA, cityB] (.tsp [cityA]) []).1 [cityA]
      rfl).mpr (by decide)

/-! ### C8: tournament-size clamping -/

theorem clampSize_of_nonpos {size : Int} (n : Nat) (h : size ≤ 0) :
    clampSize size n = clampSize 2 n := by
  simp only [clampSize]
  split_ifs <;> omega

theorem clampSize_of_large {size : Int} {n : Nat} (h : (n : Int) < size) :
    clampSize size n = clampSize (n : Int) n := by
  simp only [clampSize]
  split_ifs <;> omega

/-- **C8.** For every non-empty population and every engine stream,
`TournamentSelector.Select` with a non-positive configured size returns
exactly the same parents and consumes exactly the same draws as with size
2, and with a configured size larger than the population it behaves as
with size equal to the population size. -/
theorem tournament_size_clamping {α β : Type} [LinearOrder β] [Inhabited α]
    (fit : α → β) (size : Int) (pop : List α) (ints : List Nat)
    (_hpop : pop ≠ []) :
    (size ≤ 0 →
      tournamentSelect fit size pop ints = tournamentSelect fit 2 pop ints) ∧
    ((pop.length : Int) < size →
      tournamentSelect fit size pop ints =
        tournamentSelect fit (pop.length : Int) pop ints) := by
  constructor
  · intro h
    simp only [tournamentSelect, clampSize_of_nonpos pop.length h]
  · intro h
    simp only [tournamentSelect, clampSize_of_large h]

/-- Witness for C8: a three-candidate population with configured sizes 0
and 10. -/
theorem tournament_size_clamping_witness :
    ([1, 2, 3] : List ℚ) ≠ [] ∧
    tournamentSelect (id : ℚ → ℚ) 0 [1, 2, 3] [5, 1] =
      tournamentSelect id 2 [1, 2, 3] [5, 1] ∧
    tournamentSelect (id : ℚ → ℚ) 10 [1, 2, 3] [5, 1] =
      tournamentSelect id 3 [1, 2, 3] [5, 1] := by
  refine ⟨by decide, ?_, ?_⟩
  · exact (tournament_size_clamping id 0 [1, 2, 3] [5, 1] (by decide)).1 (by decide)
  · exact (tournament_size_clamping id 10 [1, 2, 3] [5, 1] (by decide)).2 (by decide)

/-! ### C7: `Run` on an empty population -/

/-- **C7.** `Run` on an engine whose population is empty returns the
empty-population validation failure without executing any generation —
the engine value and the global stream are returned unchanged — and the
`Best` accessor (the `bestChromosome` field) still yields `none`
afterwards whenever it was `none` before the call, as it is on any engine
before the first generation completes. -/
theorem run_empty_population_fails {α β : Type} [LinearOrderedField β]
    [Inhabited α] (fit : α → β) (cross : α → α → List Nat → α × List Nat)
    (mutOp : α → List Nat → α × List Nat) (ga : GAModel α β) (g : List Nat)
    (hpop : ga.population = []) :
    run fit cross mutOp ga g = (some .emptyPopulation, ga, g) ∧
    (ga.bestChromosome = none →
      (run fit cross mutOp ga g).2.1.bestChromosome = none) := by
  have hv : validate ga = some .emptyPopulation := by
    unfold validate
    rw [if_pos (by simp [hpop])]
  constructor
  · unfold run; rw [hv]
  · intro hb; unfold run; rw [hv]; exact hb

/-- Witness for C7 at the default-configured empty engine. -/
theorem run_empty_population_fails_witness :
    emptyGA.population = [] ∧
    run (id : ℚ → ℚ) mockCross mockMutate emptyGA [3, 4] =
      (some .emptyPopulation, emptyGA, [3, 4]) ∧
    (run (id : ℚ → ℚ) mockCross mockMutate emptyGA [3, 4]).2.1.bestChromosome
      = none := by
  have h := run_empty_population_fails (id : ℚ → ℚ) mockCross mockMutate
    emptyGA [3, 4] rfl
  exact ⟨rfl, h.1, h.2 rfl⟩

/-! ### C2: the missing population-size ceiling in `Validate` -/

/-- **C2** (code bug): `Validate` accepts the oversized configuration of
`TestValidatePopulationSizeLimit` — 150000 valid chromosomes with every
other setting valid — and returns no error, although the repository's own
test (and the specification) require a descriptive error mentioning the
recommended maximum for populations above 100000.  No population-size
ceiling exists anywhere in `Validate` (ga.go lines 118-147). -/
theorem validate_accepts_oversized_population :
    100000 < oversizedGA.population.length ∧ validate oversizedGA = none := by
  have hpop : oversizedGA.population = List.replicate 150000 (some (1 : ℚ)) := rfl
  have hlen : oversizedGA.population.length = 150000 := by
    rw [hpop, List.length_replicate]
  have hm : oversizedGA.mutationRate = 1 / 100 := rfl
  have hc : oversizedGA.crossoverRate = 4 / 5 := rfl
  refine ⟨by rw [hlen]; norm_num, ?_⟩
  unfold validate
  rw [hlen, if_neg (by norm_num), if_neg (by decide),
    if_neg (by rw [hm]; norm_num), if_neg (by rw [hc]; norm_num),
    if_neg (by decide), hpop, findNilIdx_replicate_some (1 : ℚ) 150000 0]

/-! ### C3: the convergence baseline -/

/-- **C3** (counterexample): a generation of `Run` on which the
improvement (5.5 from baseline 0) does not exceed the configured
threshold (10), so the non-improving branch runs and the no-improvement
counter is incremented from 0 to 1 without triggering the early return —
yet the recorded baseline `lastBestFitness` changes from 0 to 5.5 instead
of being left unchanged as the claim states. -/
theorem convergence_baseline_counterexample :
    0 < mockParams.convGens ∧
    isNext (gaStep mockParams convState) = true ∧
    (outState (gaStep mockParams convState)).noImp = convState.noImp + 1 ∧
    convState.lastBest = 0 ∧
    (outState (gaStep mockParams convState)).lastBest = 11 / 2 := by
  refine ⟨by norm_num [mockParams], ?_, ?_, by norm_num [convState], ?_⟩ <;>
    norm_num [gaStep, sortPop, insertDesc, mockParams, convState, buildNext,
      breedLoop, breedOne, tournamentSelect, tournRounds, clampSize, drawInt,
      drawFloat, outState, isNext]

/-- **C3** (amended): with a convergence window configured, every
generation of `Run` that continues (does not trigger the early return)
writes the current generation's best fitness into the baseline
`lastBestFitness` — on the improving branch and on the non-improving
branch alike (ga.go line 303 runs after the branch); only the early
converged return leaves the baseline untouched, and the no-improvement
counter is incremented exactly on the non-improving branch. -/
theorem convergence_baseline_updated_when_continuing {α β : Type}
    [LinearOrderedField β] [Inhabited α] (ep : EngineParams α β)
    (st : RunState α β) (top : α) (rest : List α)
    (hconv : 0 < ep.convGens)
    (hsort : sortPop ep.fit st.pop = top :: rest) :
    (∀ st', gaStep ep st = .next st' →
      st'.lastBest = ep.fit top ∧
      (¬ ep.convThreshold < ep.fit top - st.lastBest →
        st'.noImp = st.noImp + 1)) ∧
    (∀ st', gaStep ep st = .converged st' → st'.lastBest = st.lastBest) := by
  unfold gaStep
  rw [hsort]
  dsimp only
  rw [if_pos hconv]
  constructor
  · intro st' h
    split at h
    · rw [StepOut.next.injEq] at h
      subst h
      exact ⟨rfl, fun hni => absurd ‹_› hni⟩
    · split at h
      · exact StepOut.noConfusion h
      · rw [StepOut.next.injEq] at h
        subst h
        exact ⟨rfl, fun _ => rfl⟩
  · intro st' h
    split at h
    · exact StepOut.noConfusion h
    · split at h
      · rw [StepOut.converged.injEq] at h
        subst h
        rfl
      · exact StepOut.noConfusion h

theorem isNext_eq_next {α β : Type} (o : StepOut α β) (h : isNext o = true) :
    o = .next (outState o) := by
  cases o with
  | next st => rfl
  | converged st => exact absurd h (by simp [isNext])

/-- Witness for the amended C3 at the concrete mock state: the continuing
non-improving generation records baseline 5.5. -/
theorem convergence_baseline_updated_witness :
    (outState (gaStep mockParams convState)).lastBest
      = mockParams.fit (11 / 2 : ℚ) := by
  have hstep : gaStep mockParams convState
      = StepOut.next (outState (gaStep mockParams convState)) :=
    isNext_eq_next _ (by
      norm_num [gaStep, sortPop, insertDesc, mockParams, convState, buildNext,
        breedLoop, breedOne, tournamentSelect, tournRounds, clampSize, drawInt,
        drawFloat, isNext])
  exact ((convergence_baseline_updated_when_continuing mockParams convState
    (11 / 2) [] (by norm_num [mockParams])
    (by norm_num [sortPop, insertDesc, mockParams, convState])).1 _ hstep).1

/-! ### Engine-loop lemmas for C5 and C9 -/

theorem insertDesc_length {α β : Type} [LinearOrder β] (fit : α → β) (a : α) :
    ∀ l : List α, (insertDesc fit a l).length = l.length + 1 := by
  intro l
  induction l with
  | nil => rfl
  | cons b t ih =>
      rw [insertDesc]
      split
      · simpa [List.length_cons] using ih
      · simp [List.length_cons]

theorem sortPop_length {α β : Type} [LinearOrder β] (fit : α → β) :
    ∀ l : List α, (sortPop fit l).length = l.length := by
  intro l
  induction l with
  | nil => rfl
  | cons a t ih => rw [sortPop, insertDesc_length, ih, List.length_cons]

theorem sortPop_eq_nil {α β : Type} [LinearOrder β] (fit : α → β)
    (l : List α) (h : sortPop fit l = []) : l = [] := by
  have := sortPop_length fit l
  rw [h] at this
  exact List.length_eq_zero.mp this.symm

theorem breedLoop_length {α β : Type} [LinearOrder β] [Inhabited α]
    (ep : EngineParams α β) (pop : List α) :
    ∀ (k : Nat) (ints : List Nat) (floats : List ℚ) (g : List Nat),
      (breedLoop ep pop k ints floats g).1.length = k := by
  intro k
  induction k with
  | zero => intro ints floats g; rfl
  | succ m ih => intro ints floats g; simp [breedLoop, ih]

theorem buildNext_pop_length {α β : Type} [LinearOrder β] [Inhabited α]
    (ep : EngineParams α β) (sorted : List α) (best' : α)
    (lastBest' : β) (noImp' : Nat) (st : RunState α β)
    (hne : sorted ≠ []) :
    (buildNext ep sorted best' lastBest' noImp' st).pop.length
      = sorted.length := by
  have hpos : 1 ≤ sorted.length := by
    cases sorted with
    | nil => exact absurd rfl hne
    | cons a t => simp
  unfold buildNext
  dsimp only
  cases hel : ep.elitism with
  | true => simp [breedLoop_length]; omega
  | false => simp [breedLoop_length]

theorem gaStep_pop_length {α β : Type} [LinearOrderedField β] [Inhabited α]
    (ep : EngineParams α β) (st : RunState α β) :
    (outState (gaStep ep st)).pop.length = st.pop.length := by
  unfold gaStep
  rcases hsort : sortPop ep.fit st.pop with _ | ⟨top, rest⟩
  · rfl
  · have hlen : (top :: rest).length = st.pop.length := by
      rw [← hsort, sortPop_length]
    dsimp only
    split_ifs <;>
      simp [outState, hlen, buildNext_pop_length ep (top :: rest)]

theorem runLoop_pop_length {α β : Type} [LinearOrderedField β] [Inhabited α]
    (ep : EngineParams α β) :
    ∀ (k : Nat) (st : RunState α β),
      (runLoop ep k st).pop.length = st.pop.length := by
  intro k
  induction k with
  | zero => intro st; rfl
  | succ m ih =>
      intro st
      rw [runLoop]
      rcases hstep : gaStep ep st with st' | st'
      · have := gaStep_pop_length ep st
        rw [hstep] at this
        rw [ih st']
        exact this
      · have := gaStep_pop_length ep st
        rw [hstep] at this
        exact this

theorem gaStep_best_mono {α β : Type} [LinearOrderedField β] [Inhabited α]
    (ep : EngineParams α β) (st : RunState α β) (b : α)
    (hb : st.best = some b) :
    ∃ b', (outState (gaStep ep st)).best = some b' ∧ ep.fit b ≤ ep.fit b' := by
  unfold gaStep
  rcases hsort : sortPop ep.fit st.pop with _ | ⟨top, rest⟩
  · exact ⟨b, by simpa [outState] using hb, le_refl _⟩
  · rw [hb]
    dsimp only
    by_cases himp : ep.fit b < ep.fit top
    · rw [if_pos himp]
      split_ifs <;>
        exact ⟨top, by simp [outState, buildNext], le_of_lt himp⟩
    · rw [if_neg himp]
      split_ifs <;>
        exact ⟨b, by simp [outState, buildNext], le_refl _⟩

theorem gaStep_best_set {α β : Type} [LinearOrderedField β] [Inhabited α]
    (ep : EngineParams α β) (st : RunState α β)
    (hb : st.best = none) (hpop : st.pop ≠ []) :
    (outState (gaStep ep st)).best.isSome = true := by
  unfold gaStep
  rcases hsort : sortPop ep.fit st.pop with _ | ⟨top, rest⟩
  · exact absurd (sortPop_eq_nil ep.fit st.pop hsort) hpop
  · rw [hb]
    dsimp only
    split_ifs <;> simp [outState, buildNext]

theorem gaStep_best_replace {α β : Type} [LinearOrderedField β] [Inhabited α]
    (ep : EngineParams α β) (st : RunState α β) (b : α)
    (hb : st.best = some b) :
    (outState (gaStep ep st)).best = some b ∨
      ∃ top rest, sortPop ep.fit st.pop = top :: rest ∧
        (outState (gaStep ep st)).best = some top ∧ ep.fit b < ep.fit top := by
  unfold gaStep
  rcases hsort : sortPop ep.fit st.pop with _ | ⟨top, rest⟩
  · left; simpa [outState] using hb
  · rw [hb]
    dsimp only
    by_cases himp : ep.fit b < ep.fit top
    · rw [if_pos himp]
      right
      refine ⟨top, rest, rfl, ?_, himp⟩
      split_ifs <;> simp [outState, buildNext]
    · rw [if_neg himp]
      left
      split_ifs <;> simp [outState, buildNext]

theorem runLoop_best_mono {α β : Type} [LinearOrderedField β] [Inhabited α]
    (ep : EngineParams α β) :
    ∀ (k : Nat) (st : RunState α β) (b : α), st.best = some b →
      ∃ b', (runLoop ep k st).best = some b' ∧ ep.fit b ≤ ep.fit b' := by
  intro k
  induction k with
  | zero => intro st b hb; exact ⟨b, hb, le_refl _⟩
  | succ m ih =>
      intro st b hb
      rw [runLoop]
      obtain ⟨b₁, hb₁, hle₁⟩ := gaStep_best_mono ep st b hb
      rcases hstep : gaStep ep st with st' | st'
      · rw [hstep] at hb₁
        obtain ⟨b₂, hb₂, hle₂⟩ := ih st' b₁ hb₁
        exact ⟨b₂, hb₂, le_trans hle₁ hle₂⟩
      · rw [hstep] at hb₁
        exact ⟨b₁, hb₁, hle₁⟩

/-! ### C5: monotonicity of the best-so-far tracker -/

/-- **C5.** Across the generations executed by `Run`, the fitness of the
best-so-far tracker never decreases: one generation step never lowers it,
it is set by the first examined generation when previously unset, it is
replaced only when the current generation's top fitness strictly exceeds
it, and over any number of generations (with or without early
convergence) the tracked fitness is monotone non-decreasing. -/
theorem best_so_far_monotone {α β : Type} [LinearOrderedField β]
    [Inhabited α] (ep : EngineParams α β) (st : RunState α β) :
    (∀ b, st.best = some b →
      ∃ b', (outState (gaStep ep st)).best = some b' ∧ ep.fit b ≤ ep.fit b') ∧
    (st.best = none → st.pop ≠ [] →
      (outState (gaStep ep st)).best.isSome = true) ∧
    (∀ b, st.best = some b →
      (outState (gaStep ep st)).best = some b ∨
        ∃ top rest, sortPop ep.fit st.pop = top :: rest ∧
          (outState (gaStep ep st)).best = some top ∧ ep.fit b < ep.fit top) ∧
    (∀ (k : Nat) (b : α), st.best = some b →
      ∃ b', (runLoop ep k st).best = some b' ∧ ep.fit b ≤ ep.fit b') := by
  exact ⟨fun b hb => gaStep_best_mono ep st b hb,
    fun h1 h2 => gaStep_best_set ep st h1 h2,
    fun b hb => gaStep_best_replace ep st b hb,
    fun k b hb => runLoop_best_mono ep k st b hb⟩

/-- Witness for C5 at a concrete mock state: one step from a tracked best
of 3 does not decrease the tracked fitness, over 4 further generations it
is still monotone, and from an unset tracker one step sets it. -/
theorem best_so_far_monotone_witness :
    (∃ b', (outState (gaStep mockParams
        { convState with best := some 3 })).best = some b' ∧
      mockParams.fit 3 ≤ mockParams.fit b') ∧
    (∃ b', (runLoop mockParams 4
        { convState with best := some 3 }).best = some b' ∧
      mockParams.fit 3 ≤ mockParams.fit b') ∧
    (outState (gaStep mockParams convState)).best.isSome = true := by
  refine ⟨(best_so_far_monotone mockParams _).1 3 rfl,
    (best_so_far_monotone mockParams _).2.2.2 4 3 rfl,
    (best_so_far_monotone mockParams convState).2.1 rfl (by decide)⟩

/-! ### C9: the population length invariant -/

/-- **C9.** The population count is invariant across the whole run: every
generation built by one step of `Run` (with or without elitism, and on
the early-convergence exit as well) has exactly the same length as the
previous population, the loop preserves the length over any number of
generations, and for every configuration accepted by `Validate` the
population after `Run` has the initial length with no nil entries. -/
theorem population_length_invariant {α β : Type} [LinearOrderedField β]
    [Inhabited α] (fit : α → β) (cross : α → α → List Nat → α × List Nat)
    (mutOp : α → List Nat → α × List Nat) (ep : EngineParams α β)
    (st : RunState α β) (ga : GAModel α β) (g : List Nat)
    (hv : validate ga = none) :
    (outState (gaStep ep st)).pop.length = st.pop.length ∧
    (∀ k, (runLoop ep k st).pop.length = st.pop.length) ∧
    (run fit cross mutOp ga g).2.1.population.length
      = ga.population.length ∧
    (∀ x ∈ (run fit cross mutOp ga g).2.1.population, x.isSome = true) := by
  have hred : ga.population.reduceOption.length = ga.population.length :=
    reduceOption_length_of_all_isSome ga.population
      (validate_none_all_isSome ga hv)
  refine ⟨gaStep_pop_length ep st, fun k => runLoop_pop_length ep k st,
    ?_, ?_⟩
  · unfold run
    rw [hv]
    dsimp only
    rw [List.length_map, runLoop_pop_length]
    exact hred
  · unfold run
    rw [hv]
    dsimp only
    intro x hx
    obtain ⟨y, _, hy⟩ := List.mem_map.mp hx
    rw [← hy]
    rfl

/-- Witness for C9 at a concrete valid mock engine. -/
theorem population_length_invariant_witness :
    validate { emptyGA with population := [some 1, some 2] } = none ∧
    (run (id : ℚ → ℚ) mockCross mockMutate
      { emptyGA with population := [some 1, some 2] } []).2.1.population.length
      = 2 := by
  have hv : validate { emptyGA with population := [some (1 : ℚ), some 2] }
      = none := by
    unfold validate
    rw [if_neg (by norm_num), if_neg (by decide),
      if_neg (by norm_num [emptyGA]), if_neg (by norm_num [emptyGA]),
      if_neg (by decide)]
    rfl
  refine ⟨hv, ?_⟩
  rw [(population_length_invariant (id : ℚ → ℚ) mockCross mockMutate
    mockParams convState _ [] hv).2.2.1]
  rfl

/-! ### C6: two-run determinism -/

theorem breedOne_gints {α β : Type} [LinearOrder β] [Inhabited α]
    (ep : EngineParams α β) (h : GlobalFree ep.cross ep.mutOp)
    (pop : List α) (ints : List Nat) (floats : List ℚ) (g : List Nat) :
    (breedOne ep pop ints floats g).2.2.2 = g := by
  unfold breedOne
  dsimp only
  split_ifs <;> simp [h.1 _ _ g, h.2 _ g]

theorem breedLoop_gints {α β : Type} [LinearOrder β] [Inhabited α]
    (ep : EngineParams α β) (h : GlobalFree ep.cross ep.mutOp)
    (pop : List α) :
    ∀ (k : Nat) (ints : List Nat) (floats : List ℚ) (g : List Nat),
      (breedLoop ep pop k ints floats g).2.2.2 = g := by
  intro k
  induction k with
  | zero => intro ints floats g; rfl
  | succ m ih =>
      intro ints floats g
      rw [breedLoop]
      dsimp only
      rw [ih, breedOne_gints ep h]

theorem gaStep_gints {α β : Type} [LinearOrderedField β] [Inhabited α]
    (ep : EngineParams α β) (h : GlobalFree ep.cross ep.mutOp)
    (st : RunState α β) :
    (outState (gaStep ep st)).gints = st.gints := by
  unfold gaStep
  rcases hsort : sortPop ep.fit st.pop with _ | ⟨top, rest⟩
  · rfl
  · dsimp only
    split_ifs <;> simp [outState, buildNext, breedLoop_gints ep h]

theorem runLoop_gints {α β : Type} [LinearOrderedField β] [Inhabited α]
    (ep : EngineParams α β) (h : GlobalFree ep.cross ep.mutOp) :
    ∀ (k : Nat) (st : RunState α β), (runLoop ep k st).gints = st.gints := by
  intro k
  induction k with
  | zero => intro st; rfl
  | succ m ih =>
      intro st
      rw [runLoop]
      have hst := gaStep_gints ep h st
      rcases hstep : gaStep ep st with st' | st'
      · rw [hstep] at hst
        simp only [outState] at hst
        rw [ih st', hst]
      · rw [hstep] at hst
        exact hst

theorem run_gints {α β : Type} [LinearOrderedField β] [Inhabited α]
    (fit : α → β) (cross : α → α → List Nat → α × List Nat)
    (mutOp : α → List Nat → α × List Nat) (h : GlobalFree cross mutOp)
    (ga : GAModel α β) (g : List Nat) :
    (run fit cross mutOp ga g).2.2 = g := by
  unfold run
  rcases hv : validate ga with _ | e
  · dsimp only
    exact runLoop_gints _ h _ _
  · rfl

/-- **C6** (amended): for two engines constructed with identical
configurations and the same explicit seed (hence equal as engine values),
running one after the other yields identical results — error, final
engine state, and hence best-candidate fitness — provided the candidate
operations never read the process-global random stream, as
`MockChromosome`'s do not.  `TSPChromosome.Crossover` and `Mutate` do
read that stream (tsp.go lines 51-52, 93-98), and the concrete
counterexample below shows the claim fails for them. -/
theorem run_deterministic_of_global_free {α β : Type} [LinearOrderedField β]
    [Inhabited α] (fit : α → β) (cross : α → α → List Nat → α × List Nat)
    (mutOp : α → List Nat → α × List Nat) (h : GlobalFree cross mutOp)
    (ga : GAModel α β) (g : List Nat) :
    (runTwice fit cross mutOp ga g).2 = (runTwice fit cross mutOp ga g).1 := by
  unfold runTwice
  dsimp only
  rw [run_gints fit cross mutOp h ga g]

/-- Witness for the amended C6: the mock operations are global-free, and
the two identically seeded mock runs agree exactly. -/
theorem run_deterministic_of_global_free_witness :
    GlobalFree mockCross mockMutate ∧
    (runTwice (id : ℚ → ℚ) mockCross mockMutate
        { emptyGA with population := [some 1, some 2] } [7, 8]).2
      = (runTwice (id : ℚ → ℚ) mockCross mockMutate
        { emptyGA with population := [some 1, some 2] } [7, 8]).1 := by
  have hgf : GlobalFree mockCross mockMutate :=
    ⟨fun a b g => rfl, fun a g => rfl⟩
  exact ⟨hgf, run_deterministic_of_global_free id mockCross mockMutate hgf _ _⟩

/-! ### C4: TSP fitness values -/

theorem sqrt_eval {a b : ℝ} (hb : 0 ≤ b) (h : a = b * b) :
    Real.sqrt a = b := by
  rw [h]
  exact Real.sqrt_mul_self hb

theorem distance_comm (c1 c2 : City) : distance c1 c2 = distance c2 c1 := by
  rw [distance, distance]
  ring_nf

theorem distance_AB : distance cityA cityB = 3 := by
  rw [distance]
  exact sqrt_eval (by norm_num) (by norm_num [cityA, cityB])

theorem distance_AC : distance cityA cityC = 4 := by
  rw [distance]
  exact sqrt_eval (by norm_num) (by norm_num [cityA, cityC])

theorem distance_AD : distance cityA cityD = 5 := by
  rw [distance]
  exact sqrt_eval (by norm_num) (by norm_num [cityA, cityD])

theorem distance_BC : distance cityB cityC = 5 := by
  rw [distance]
  exact sqrt_eval (by norm_num) (by norm_num [cityB, cityC])

theorem distance_BD : distance cityB cityD = 4 := by
  rw [distance]
  exact sqrt_eval (by norm_num) (by norm_num [cityB, cityD])

theorem distance_CD : distance cityC cityD = 3 := by
  rw [distance]
  exact sqrt_eval (by norm_num) (by norm_num [cityC, cityD])

theorem totalDistance_pair (u v : City) :
    totalDistance [u, v] = 0 + distance u v + distance v u := rfl

theorem totalDistance_AD_pair : totalDistance [cityA, cityD] = 10 := by
  rw [totalDistance_pair, distance_AD, distance_comm, distance_AD]
  norm_num

theorem tspFitness_AD_pair : tspFitness [cityA, cityD] = 1 / 10 := by
  rw [tspFitness, if_neg (by norm_num), totalDistance_AD_pair,
    if_neg (by norm_num)]

theorem totalDistance_coincident :
    totalDistance [⟨"A", 1, 1⟩, ⟨"B", 1, 1⟩] = 0 := by
  rw [totalDistance_pair]
  have h1 : distance ⟨"A", 1, 1⟩ ⟨"B", 1, 1⟩ = 0 := by
    rw [distance]
    exact sqrt_eval (by norm_num) (by norm_num)
  have h2 : distance ⟨"B", 1, 1⟩ ⟨"A", 1, 1⟩ = 0 := by
    rw [distance]
    exact sqrt_eval (by norm_num) (by norm_num)
  rw [h1, h2]
  norm_num

/-- **C4** (counterexample): the two-point route with coincident points
`("A",1,1), ("B",1,1)` scores 0 — the guard in `Fitness` returns 0 on a
zero total distance instead of positive infinity, so the allegedly
infinite score is in fact strictly below the score of an ordinary route —
and the two-point route `(0,0), (3,4)` at Euclidean distance 5 scores
1/10 (the closed tour traverses the leg twice, total 10), not 0.2. -/
theorem tsp_fitness_special_cases_counterexample :
    tspFitness [⟨"A", 1, 1⟩, ⟨"B", 1, 1⟩] = 0 ∧
    tspFitness [cityA, cityD] = 1 / 10 ∧
    tspFitness [⟨"A", 1, 1⟩, ⟨"B", 1, 1⟩] < tspFitness [cityA, cityD] ∧
    tspFitness [cityA, cityD] ≠ 1 / 5 := by
  have hz : tspFitness [⟨"A", 1, 1⟩, ⟨"B", 1, 1⟩] = 0 := by
    rw [tspFitness, if_neg (by norm_num), totalDistance_coincident,
      if_pos rfl]
  refine ⟨hz, tspFitness_AD_pair, ?_, ?_⟩
  · rw [hz, tspFitness_AD_pair]; norm_num
  · rw [tspFitness_AD_pair]; norm_num

/-- **C4** (amended): a single-point route scores exactly 0; a route whose
total closed-tour distance is exactly 0 (e.g. two coincident points)
scores 0 as well — the division guard returns 0, although the
repository's own test expects positive infinity there — the two-point
route `(0,0), (3,4)` scores exactly 1/10; and every route of length at
least 2 with non-zero total distance scores 1 divided by its total
closed-tour distance. -/
theorem tsp_fitness_values :
    (∀ c : City, tspFitness [c] = 0) ∧
    tspFitness [⟨"A", 1, 1⟩, ⟨"B", 1, 1⟩] = 0 ∧
    tspFitness [cityA, cityD] = 1 / 10 ∧
    (∀ r : List City, 2 ≤ r.length → totalDistance r ≠ 0 →
      tspFitness r = 1 / totalDistance r) := by
  refine ⟨?_, ?_, tspFitness_AD_pair, ?_⟩
  · intro c
    rw [tspFitness, if_pos (by norm_num)]
  · rw [tspFitness, if_neg (by norm_num), totalDistance_coincident,
      if_pos rfl]
  · intro r hlen htot
    rw [tspFitness, if_neg (by omega), if_neg htot]

/-- Witness for the amended C4: the general reciprocal rule applied to the
3-4-5 two-point route. -/
theorem tsp_fitness_values_witness :
    2 ≤ ([cityA, cityD] : List City).length ∧
    totalDistance [cityA, cityD] ≠ 0 ∧
    tspFitness [cityA, cityD] = 1 / totalDistance [cityA, cityD] := by
  have h1 : 2 ≤ ([cityA, cityD] : List City).length := by norm_num
  have h2 : totalDistance [cityA, cityD] ≠ 0 := by
    rw [totalDistance_AD_pair]; norm_num
  exact ⟨h1, h2, tsp_fitness_values.2.2.2 [cityA, cityD] h1 h2⟩

/-! ### C1: the OX1 permutation invariant -/

theorem take_succ_set_self {α : Type} :
    ∀ (ch : List α) (idx : Nat) (c : α), idx < ch.length →
      (ch.set idx c).take (idx + 1) = ch.take idx ++ [c] := by
  intro ch
  induction ch with
  | nil => intro idx c h; simp at h
  | cons a t ih =>
      intro idx c h
      cases idx with
      | zero => simp
      | succ m =>
          rw [List.set_cons_succ, List.take_succ_cons, List.take_succ_cons,
            ih m c (by simpa using h)]
          rfl

theorem writeSeq_append (n : Nat) :
    ∀ (l1 l2 : List City) (st : List City × Nat),
      writeSeq n (l1 ++ l2) st = writeSeq n l2 (writeSeq n l1 st) := by
  intro l1
  induction l1 with
  | nil => intro l2 st; rfl
  | cons c cs ih => intro l2 st; rw [List.cons_append, writeSeq, writeSeq, ih]

theorem writeSeq_no_wrap (n : Nat) :
    ∀ (L ch : List City) (idx : Nat), ch.length = n → idx + L.length ≤ n →
      (writeSeq n L (ch, idx)).1
        = ch.take idx ++ L ++ ch.drop (idx + L.length) := by
  intro L
  induction L with
  | nil =>
      intro ch idx hch h
      simp [writeSeq]
  | cons c cs ih =>
      intro ch idx hch h
      have hidx : idx < ch.length := by
        rw [hch]; simp only [List.length_cons] at h; omega
      rw [writeSeq]
      by_cases hcs : cs = []
      · subst hcs
        rw [writeSeq]
        dsimp only
        rw [List.set_eq_take_append_cons_drop, if_pos hidx]
        simp
      · have hlen1 : 1 ≤ cs.length := by
          cases cs with
          | nil => exact absurd rfl hcs
          | cons _ _ => simp
        simp only [List.length_cons] at h
        rw [Nat.mod_eq_of_lt (by omega : idx + 1 < n)]
        rw [ih (ch.set idx c) (idx + 1) (by simpa using hch) (by omega)]
        rw [take_succ_set_self ch idx c hidx,
          List.drop_set_of_lt c ch (by omega : idx < idx + 1 + cs.length)]
        rw [show idx + 1 + cs.length = idx + (cs.length + 1) from by omega]
        simp

theorem writeSeq_exact (n : Nat) :
    ∀ (L ch : List City) (idx : Nat), ch.length = n → idx + L.length = n →
      0 < L.length → writeSeq n L (ch, idx) = (ch.take idx ++ L, 0) := by
  intro L
  induction L with
  | nil => intro ch idx hch h hpos; simp at hpos
  | cons c cs ih =>
      intro ch idx hch h hpos
      simp only [List.length_cons] at h
      have hidx : idx < ch.length := by omega
      rw [writeSeq]
      by_cases hcs : cs = []
      · subst hcs
        rw [writeSeq]
        dsimp only
        have h1 : idx + 1 = n := by simpa using h
        rw [h1, Nat.mod_self]
        rw [List.set_eq_take_append_cons_drop, if_pos hidx]
        rw [show idx + 1 = ch.length from by omega, List.drop_length]
      · have hlen1 : 1 ≤ cs.length := by
          cases cs with
          | nil => exact absurd rfl hcs
          | cons _ _ => simp
        rw [Nat.mod_eq_of_lt (by omega : idx + 1 < n)]
        rw [ih (ch.set idx c) (idx + 1) (by simpa using hch) (by omega)
          (by omega)]
        rw [take_succ_set_self ch idx c hidx]
        simp

theorem range'_map_getD (p : List City) :
    ∀ (k a : Nat), a + k ≤ p.length →
      (List.range' a k).map (fun i => p.getD i cityZero)
        = (p.drop a).take k := by
  intro k
  induction k with
  | zero => intro a h; simp
  | succ m ih =>
      intro a h
      have ha : a < p.length := by omega
      rw [List.range'_succ, List.map_cons, ih (a + 1) (by omega)]
      rw [List.getD_eq_getElem p cityZero ha]
      rw [List.drop_eq_getElem_cons ha, List.take_succ_cons]

theorem range'_foldl_set (p : List City) :
    ∀ (k a : Nat) (ch : List City), a + k ≤ ch.length → a + k ≤ p.length →
      (List.range' a k).foldl (fun c i => c.set i (p.getD i cityZero)) ch
        = ch.take a ++ (p.drop a).take k ++ ch.drop (a + k) := by
  intro k
  induction k with
  | zero => intro a ch h1 h2; simp
  | succ m ih =>
      intro a ch h1 h2
      have hac : a < ch.length := by omega
      have hap : a < p.length := by omega
      rw [List.range'_succ, List.foldl_cons]
      rw [ih (a + 1) (ch.set a (p.getD a cityZero))
        (by simp only [List.length_set]; omega) (by omega)]
      rw [take_succ_set_self ch a _ hac,
        List.drop_set_of_lt _ ch (by omega : a < a + 1 + m)]
      rw [List.drop_eq_getElem_cons hap, List.take_succ_cons]
      rw [List.getD_eq_getElem p cityZero hap]
      rw [show a + 1 + m = a + (m + 1) from by omega]
      simp

theorem segmentWrite_eq (p1 : List City) (s e : Nat)
    (hse : s ≤ e) (hen : e < p1.length) :
    segmentWrite p1 s e (List.replicate p1.length cityZero)
      = List.replicate s cityZero ++ (p1.drop s).take (e + 1 - s)
        ++ List.replicate (p1.length - 1 - e) cityZero := by
  rw [segmentWrite,
    range'_foldl_set p1 (e + 1 - s) s (List.replicate p1.length cityZero)
      (by simp; omega) (by omega)]
  rw [List.take_replicate, List.drop_replicate]
  have h1 : min s p1.length = s := by omega
  have h2 : p1.length - (s + (e + 1 - s)) = p1.length - 1 - e := by omega
  rw [h1, h2]

theorem segmentNames_eq (p1 : List City) (s e : Nat)
    (h : s + (e + 1 - s) ≤ p1.length) :
    segmentNames p1 s e = ((p1.drop s).take (e + 1 - s)).map City.name := by
  rw [segmentNames, ← range'_map_getD p1 (e + 1 - s) s h, List.map_map]
  rfl

theorem range_map_rot (p2 : List City) (e n : Nat) (hlen : p2.length = n)
    (hn : 0 < n) :
    (List.range n).map (fun i => p2.getD ((e + 1 + i) % n) cityZero)
      = p2.drop ((e + 1) % n) ++ p2.take ((e + 1) % n) := by
  have hk : (e + 1) % n < n := Nat.mod_lt _ hn
  apply List.ext_getElem
  · simp [hlen]
    omega
  · intro i h1 h2
    simp only [List.getElem_map, List.getElem_range]
    have hi : i < n := by simpa using h1
    have hmod : (e + 1 + i) % n = ((e + 1) % n + i) % n := by
      rw [Nat.add_mod (e + 1) i n, Nat.mod_eq_of_lt hi]
    by_cases hcase : i < n - (e + 1) % n
    · have hin : (e + 1) % n + i < n := by omega
      rw [hmod, Nat.mod_eq_of_lt hin]
      rw [List.getElem_append_left (by simp [hlen]; omega)]
      rw [List.getElem_drop]
      exact List.getD_eq_getElem p2 cityZero (by omega)
    · have hge : n ≤ (e + 1) % n + i := by omega
      have hlt2 : (e + 1) % n + i - n < n := by omega
      have h3 : ((e + 1) % n + i) % n = (e + 1) % n + i - n := by
        rw [Nat.mod_eq_sub_mod hge, Nat.mod_eq_of_lt hlt2]
      rw [hmod, h3]
      rw [List.getElem_append_right (by simp [hlen]; omega)]
      rw [List.getElem_take]
      rw [List.getD_eq_getElem p2 cityZero (by omega)]
      congr 1
      simp [hlen]
      omega

theorem foldl_skip_eq_writeSeq (used : List String) (n : Nat) :
    ∀ (l : List City) (init : List City × Nat),
      l.foldl (fun st c => if used.contains c.name then st
          else (st.1.set st.2 c, (st.2 + 1) % n)) init
        = writeSeq n (l.filter (fun c => !(used.contains c.name))) init := by
  intro l
  induction l with
  | nil => intro init; rfl
  | cons c cs ih =>
      intro init
      rw [List.foldl_cons, List.filter_cons]
      by_cases hc : used.contains c.name
      · rw [if_pos hc, if_neg (by simp; exact List.elem_iff.mp hc)]
        exact ih init
      · rw [if_neg hc, if_pos (by simp; exact fun hm => hc (List.elem_iff.mpr hm)),
          writeSeq]
        exact ih _

theorem fillLoop_eq_writeSeq (p2 : List City) (e : Nat) (used : List String)
    (n : Nat) (init : List City × Nat) (hlen : p2.length = n) (hn : 0 < n) :
    fillLoop p2 e used n init
      = writeSeq n
          ((p2.drop ((e + 1) % n) ++ p2.take ((e + 1) % n)).filter
            (fun c => !(used.contains c.name))) init := by
  rw [fillLoop, ← range_map_rot p2 e n hlen hn, ← foldl_skip_eq_writeSeq used n,
    List.foldl_map]

theorem ox1_eq (p1 p2 : List City) (s e : Nat)
    (hlen : p2.length = p1.length) (hse : s ≤ e) (hen : e < p1.length)
    (hF : ((p2.drop ((e + 1) % p1.length) ++ p2.take ((e + 1) % p1.length)).filter
        (fun c => !((segmentNames p1 s e).contains c.name))).length
      = s + (p1.length - 1 - e)) :
    ox1 p1 p2 s e
      = ((p2.drop ((e + 1) % p1.length) ++ p2.take ((e + 1) % p1.length)).filter
          (fun c => !((segmentNames p1 s e).contains c.name))).drop
            (p1.length - 1 - e)
        ++ (p1.drop s).take (e + 1 - s)
        ++ ((p2.drop ((e + 1) % p1.length) ++ p2.take ((e + 1) % p1.length)).filter
          (fun c => !((segmentNames p1 s e).contains c.name))).take
            (p1.length - 1 - e) := by
  have hnpos : 0 < p1.length := by omega
  have hseglen : ((p1.drop s).take (e + 1 - s)).length = e + 1 - s := by
    simp only [List.length_take, List.length_drop]
    omega
  rw [ox1]
  rw [fillLoop_eq_writeSeq p2 e (segmentNames p1 s e) p1.length _ hlen hnpos,
    segmentWrite_eq p1 s e hse hen]
  set F := (p2.drop ((e + 1) % p1.length) ++ p2.take ((e + 1) % p1.length)).filter
    (fun c => !((segmentNames p1 s e).contains c.name)) with hFdef
  set seg := (p1.drop s).take (e + 1 - s) with hsegdef
  have hch0len : (List.replicate s cityZero ++ seg
      ++ List.replicate (p1.length - 1 - e) cityZero).length = p1.length := by
    simp only [List.length_append, List.length_replicate, hseglen]
    omega
  by_cases hcase : e + 1 = p1.length
  · have hm : p1.length - 1 - e = 0 := by omega
    rw [hm] at hF ⊢
    rw [show (e + 1) % p1.length = 0 from by rw [hcase, Nat.mod_self]]
    rw [List.replicate_zero, List.append_nil]
    have hfl := writeSeq_no_wrap p1.length F
      (List.replicate s cityZero ++ seg) 0
      (by simpa [hm, List.replicate_zero, List.append_nil] using hch0len)
      (by omega)
    rw [hfl]
    rw [List.take_zero, List.nil_append, Nat.zero_add, hF, Nat.add_zero]
    rw [List.drop_left' (by simp : (List.replicate s cityZero).length = s)]
    simp
  · have hlt : e + 1 < p1.length := by omega
    have hmpos : 0 < p1.length - 1 - e := by omega
    rw [show (e + 1) % p1.length = e + 1 from Nat.mod_eq_of_lt hlt]
    conv_lhs => rw [← List.take_append_drop (p1.length - 1 - e) F]
    rw [writeSeq_append]
    have hF1len : (F.take (p1.length - 1 - e)).length = p1.length - 1 - e := by
      simp only [List.length_take]
      omega
    rw [writeSeq_exact p1.length (F.take (p1.length - 1 - e)) _ (e + 1)
      hch0len (by omega) (by omega)]
    have htake : (List.replicate s cityZero ++ seg
        ++ List.replicate (p1.length - 1 - e) cityZero).take (e + 1)
        = List.replicate s cityZero ++ seg := by
      exact List.take_left' (by simp [hseglen]; omega)
    rw [htake]
    have hF2len : (F.drop (p1.length - 1 - e)).length = s := by
      simp only [List.length_drop]
      omega
    have hfl2 := writeSeq_no_wrap p1.length (F.drop (p1.length - 1 - e))
      (List.replicate s cityZero ++ seg ++ F.take (p1.length - 1 - e)) 0
      (by simp only [List.length_append, List.length_replicate, hseglen,
            hF1len]; omega)
      (by omega)
    rw [hfl2]
    rw [List.take_zero, List.nil_append, Nat.zero_add, hF2len]
    have hdrop : (List.replicate s cityZero ++ seg
        ++ F.take (p1.length - 1 - e)).drop s
        = seg ++ F.take (p1.length - 1 - e) := by
      rw [List.append_assoc]
      exact List.drop_left' (by simp)
    rw [hdrop]
    simp [List.append_assoc]

theorem ox1_perm (p1 p2 : List City) (s e : Nat)
    (hperm : p2.Perm p1) (hnd : (p1.map City.name).Nodup)
    (hse : s ≤ e) (hen : e < p1.length) :
    (ox1 p1 p2 s e).Perm p1 := by
  have hlen : p2.length = p1.length := hperm.length_eq
  have hnpos : 0 < p1.length := by omega
  have hsegnames : segmentNames p1 s e
      = ((p1.drop s).take (e + 1 - s)).map City.name :=
    segmentNames_eq p1 s e (by omega)
  set seg := (p1.drop s).take (e + 1 - s) with hsegdef
  set A := p1.take s with hA
  set B := p1.drop (e + 1) with hB
  have hsplit : p1 = A ++ (seg ++ B) := by
    rw [hA, hsegdef, hB]
    conv_lhs => rw [← List.take_append_drop s p1]
    congr 1
    conv_lhs => rw [← List.take_append_drop (e + 1 - s) (p1.drop s)]
    congr 1
    rw [List.drop_drop]
    congr 1
    omega
  have hnames : (A.map City.name ++ (seg.map City.name ++ B.map City.name)).Nodup := by
    have := hnd
    rw [hsplit] at this
    simpa [List.map_append] using this
  rw [List.nodup_append] at hnames
  obtain ⟨hndA, hnames2, hdisjA⟩ := hnames
  rw [List.nodup_append] at hnames2
  obtain ⟨hndseg, hndB, hdisjsegB⟩ := hnames2
  set pred := fun c : City => !((segmentNames p1 s e).contains c.name)
    with hpreddef
  -- the filter keeps exactly the cities outside the segment
  have hsegfilter : seg.filter pred = [] := by
    rw [hpreddef]
    rw [List.filter_eq_nil_iff]
    intro c hc
    simp only [Bool.not_eq_true', Bool.not_eq_false]
    refine List.elem_iff.mpr ?_
    rw [hsegnames]
    exact List.mem_map_of_mem City.name hc
  have hAfilter : A.filter pred = A := by
    rw [hpreddef]
    rw [List.filter_eq_self]
    intro c hc
    simp only [Bool.not_eq_true']
    rw [← Bool.not_eq_true]
    intro hcon
    have hmem := List.elem_iff.mp hcon
    rw [hsegnames] at hmem
    exact hdisjA (List.mem_map_of_mem City.name hc)
      (List.mem_append_left _ hmem)
  have hBfilter : B.filter pred = B := by
    rw [hpreddef]
    rw [List.filter_eq_self]
    intro c hc
    simp only [Bool.not_eq_true']
    rw [← Bool.not_eq_true]
    intro hcon
    have hmem := List.elem_iff.mp hcon
    rw [hsegnames] at hmem
    exact hdisjsegB hmem (List.mem_map_of_mem City.name hc)
  set k := (e + 1) % p1.length with hk
  set F := (p2.drop k ++ p2.take k).filter pred with hFdef
  have hrot : (p2.drop k ++ p2.take k).Perm p1 := by
    refine List.Perm.trans ?_ hperm
    have h1 : (p2.drop k ++ p2.take k).Perm (p2.take k ++ p2.drop k) :=
      List.perm_append_comm
    rw [List.take_append_drop k p2] at h1
    exact h1
  have hFperm : F.Perm (A ++ B) := by
    have h1 := hrot.filter pred
    rw [hsplit] at h1
    rw [List.filter_append, List.filter_append, List.filter_append,
      hsegfilter, hAfilter, hBfilter, List.nil_append] at h1
    rw [hFdef, List.filter_append]
    exact h1
  have hABlen : (A ++ B).length = s + (p1.length - 1 - e) := by
    simp only [List.length_append, hA, hB, List.length_take,
      List.length_drop]
    omega
  have hFlen : F.length = s + (p1.length - 1 - e) := by
    rw [hFperm.length_eq, hABlen]
  rw [ox1_eq p1 p2 s e hlen hse hen (by rw [← hpreddef, ← hFdef, hFlen])]
  rw [← hpreddef, ← hFdef, ← hsegdef]
  have step1 : (F.drop (p1.length - 1 - e) ++ seg
      ++ F.take (p1.length - 1 - e)).Perm (F ++ seg) := by
    have hc : (F.drop (p1.length - 1 - e) ++ seg
        ++ F.take (p1.length - 1 - e)).Perm
        (F.take (p1.length - 1 - e) ++ (F.drop (p1.length - 1 - e) ++ seg)) :=
      List.perm_append_comm
    rw [← List.append_assoc, List.take_append_drop] at hc
    exact hc
  have step2 : (F ++ seg).Perm (A ++ (seg ++ B)) := by
    refine List.Perm.trans (hFperm.append_right seg) ?_
    rw [List.append_assoc]
    exact List.Perm.append_left A List.perm_append_comm
  have hfin : (A ++ (seg ++ B)).Perm p1 := by
    rw [hsplit]
  exact (step1.trans step2).trans hfin

/-- **C1.** For every pair of parent routes of equal length at least 2
that are permutations of the same set of distinctly named cities, and for
every pair of cut draws taken from the random stream, the child produced
by `TSPChromosome.Crossover` has the same length as the parents and
contains each parent city exactly once — no duplication, no omission —
regardless of the cut points. -/
theorem crossover_preserves_cities (p1 p2 : List City) (g : List Nat)
    (hlen2 : 2 ≤ p1.length) (hperm : p2.Perm p1)
    (hnd : (p1.map City.name).Nodup) :
    (crossoverRoute p1 p2 g).1.length = p1.length ∧
    ∀ c ∈ p1, (crossoverRoute p1 p2 g).1.count c = 1 := by
  have hlen : p2.length = p1.length := hperm.length_eq
  have hnpos : 0 < p1.length := by omega
  have hd1 : (drawInt g p1.length).1 < p1.length := by
    cases g with
    | nil => simpa [drawInt] using hnpos
    | cons v rest => simpa [drawInt] using Nat.mod_lt v hnpos
  have hd2 : (drawInt (drawInt g p1.length).2 p1.length).1 < p1.length := by
    cases (drawInt g p1.length).2 with
    | nil => simpa [drawInt] using hnpos
    | cons v rest => simpa [drawInt] using Nat.mod_lt v hnpos
  have key : ∀ a b : Nat, a ≤ b → b < p1.length →
      (ox1 p1 p2 a b).length = p1.length ∧
      ∀ c ∈ p1, (ox1 p1 p2 a b).count c = 1 := by
    intro a b hab hbn
    have hp := ox1_perm p1 p2 a b hperm hnd hab hbn
    refine ⟨hp.length_eq, fun c hc => ?_⟩
    rw [hp.count_eq]
    exact List.nodup_iff_count_eq_one.mp (List.Nodup.of_map City.name hnd) c hc
  rw [crossoverRoute, if_neg (by push_neg; exact ⟨hlen.symm, by omega⟩)]
  exact key _ _ (by split_ifs <;> omega) (by split_ifs <;> assumption)

/-- Witness for C1: a concrete pair of 3-city permutation parents and a
concrete draw stream. -/
theorem crossover_preserves_cities_witness :
    2 ≤ ([cityA, cityB, cityC] : List City).length ∧
    ([cityC, cityA, cityB] : List City).Perm [cityA, cityB, cityC] ∧
    (([cityA, cityB, cityC] : List City).map City.name).Nodup ∧
    (crossoverRoute [cityA, cityB, cityC] [cityC, cityA, cityB]
      [2, 1]).1.length = 3 ∧
    ∀ c ∈ ([cityA, cityB, cityC] : List City),
      (crossoverRoute [cityA, cityB, cityC] [cityC, cityA, cityB]
        [2, 1]).1.count c = 1 := by
  have h := crossover_preserves_cities [cityA, cityB, cityC]
    [cityC, cityA, cityB] [2, 1] (by decide) (by decide) (by decide)
  exact ⟨by decide, by decide, by decide, h.1, h.2⟩

/-! ### C6 continued: the concrete TSP two-run counterexample -/

theorem getD_pair_zero {α : Type} (a b d : α) : List.getD [a, b] 0 d = a := rfl

theorem getD_pair_one {α : Type} (a b d : α) : List.getD [a, b] 1 d = b := rfl

theorem runLoop_succ_eq {α β : Type} [LinearOrderedField β] [Inhabited α]
    (ep : EngineParams α β) (k : Nat) (st : RunState α β) :
    runLoop ep (k + 1) st
      = match gaStep ep st with
        | .next st' => runLoop ep k st'
        | .converged st' => st' := rfl

theorem validate_tspCfg : validate tspCfg = none := by
  have hm : tspCfg.mutationRate = 0 := rfl
  have hc : tspCfg.crossoverRate = 4 / 5 := rfl
  unfold validate
  rw [if_neg (by norm_num [tspCfg]), if_neg (by decide),
    if_neg (by rw [hm]; norm_num), if_neg (by rw [hc]; norm_num),
    if_neg (by decide)]
  rfl

theorem fit_ABCD : tspFitness [cityA, cityB, cityC, cityD] = 1 / 16 := by
  have htot : totalDistance [cityA, cityB, cityC, cityD] = 16 := by
    rw [show totalDistance [cityA, cityB, cityC, cityD]
        = 0 + distance cityA cityB + distance cityB cityC
          + distance cityC cityD + distance cityD cityA from rfl]
    rw [distance_comm cityD cityA, distance_AB, distance_BC, distance_CD,
      distance_AD]
    norm_num
  rw [tspFitness, if_neg (by norm_num), htot, if_neg (by norm_num)]

theorem fit_ADBC : tspFitness [cityA, cityD, cityB, cityC] = 1 / 18 := by
  have htot : totalDistance [cityA, cityD, cityB, cityC] = 18 := by
    rw [show totalDistance [cityA, cityD, cityB, cityC]
        = 0 + distance cityA cityD + distance cityD cityB
          + distance cityB cityC + distance cityC cityA from rfl]
    rw [distance_comm cityD cityB, distance_comm cityC cityA, distance_AD,
      distance_BD, distance_BC, distance_AC]
    norm_num
  rw [tspFitness, if_neg (by norm_num), htot, if_neg (by norm_num)]

theorem fit_CDBA : tspFitness [cityC, cityD, cityB, cityA] = 1 / 14 := by
  have htot : totalDistance [cityC, cityD, cityB, cityA] = 14 := by
    rw [show totalDistance [cityC, cityD, cityB, cityA]
        = 0 + distance cityC cityD + distance cityD cityB
          + distance cityB cityA + distance cityA cityC from rfl]
    rw [distance_comm cityD cityB, distance_comm cityB cityA, distance_CD,
      distance_BD, distance_AB, distance_AC]
    norm_num
  rw [tspFitness, if_neg (by norm_num), htot, if_neg (by norm_num)]

theorem crossEval1 :
    crossoverRoute [cityA, cityD, cityB, cityC] [cityA, cityB, cityC, cityD]
      [1, 2, 0, 0] = ([cityC, cityD, cityB, cityA], [0, 0]) := by decide

theorem crossEval2 :
    crossoverRoute [cityA, cityB, cityC, cityD] [cityC, cityD, cityB, cityA]
      [0, 0] = ([cityA, cityD, cityB, cityC], []) := by decide

theorem crossEval3 :
    crossoverRoute [cityA, cityD, cityB, cityC] [cityA, cityB, cityC, cityD]
      [] = ([cityA, cityB, cityC, cityD], []) := by decide

theorem crossEval4 :
    crossoverRoute [cityA, cityB, cityC, cityD] [cityA, cityB, cityC, cityD]
      [] = ([cityA, cityB, cityC, cityD], []) := by decide

theorem tspRun1_step1 :
    gaStep tspEP (tspSt0 [1, 2, 0, 0])
      = StepOut.next
          ({ pop := [[cityA, cityB, cityC, cityD], [cityC, cityD, cityB, cityA]]
             best := some [cityA, cityB, cityC, cityD]
             lastBest := 0
             noImp := 0
             ints := [1, 1, 0, 0]
             floats := [1 / 2, 9 / 10]
             gints := [0, 0] } : RunState (List City) ℝ) := by
  norm_num [gaStep, sortPop, insertDesc, tspEP, tspSt0, buildNext, breedLoop,
    breedOne, tournamentSelect, tournRounds, clampSize, drawInt, drawFloat,
    getD_pair_zero, getD_pair_one, fit_ABCD, fit_ADBC, crossEval1]

theorem tspRun1_step2 :
    gaStep tspEP
      ({ pop := [[cityA, cityB, cityC, cityD], [cityC, cityD, cityB, cityA]]
         best := some [cityA, cityB, cityC, cityD]
         lastBest := 0
         noImp := 0
         ints := [1, 1, 0, 0]
         floats := [1 / 2, 9 / 10]
         gints := [0, 0] } : RunState (List City) ℝ)
      = StepOut.next
          ({ pop := [[cityC, cityD, cityB, cityA], [cityA, cityD, cityB, cityC]]
             best := some [cityC, cityD, cityB, cityA]
             lastBest := 0
             noImp := 0
             ints := []
             floats := []
             gints := [] } : RunState (List City) ℝ) := by
  norm_num [gaStep, sortPop, insertDesc, tspEP, buildNext, breedLoop,
    breedOne, tournamentSelect, tournRounds, clampSize, drawInt, drawFloat,
    getD_pair_zero, getD_pair_one, fit_ABCD, fit_CDBA, crossEval2]

theorem tspRun2_step1 :
    gaStep tspEP (tspSt0 [])
      = StepOut.next
          ({ pop := [[cityA, cityB, cityC, cityD], [cityA, cityB, cityC, cityD]]
             best := some [cityA, cityB, cityC, cityD]
             lastBest := 0
             noImp := 0
             ints := [1, 1, 0, 0]
             floats := [1 / 2, 9 / 10]
             gints := [] } : RunState (List City) ℝ) := by
  norm_num [gaStep, sortPop, insertDesc, tspEP, tspSt0, buildNext, breedLoop,
    breedOne, tournamentSelect, tournRounds, clampSize, drawInt, drawFloat,
    getD_pair_zero, getD_pair_one, fit_ABCD, fit_ADBC, crossEval3]

theorem tspRun2_step2 :
    gaStep tspEP
      ({ pop := [[cityA, cityB, cityC, cityD], [cityA, cityB, cityC, cityD]]
         best := some [cityA, cityB, cityC, cityD]
         lastBest := 0
         noImp := 0
         ints := [1, 1, 0, 0]
         floats := [1 / 2, 9 / 10]
         gints := [] } : RunState (List City) ℝ)
      = StepOut.next
          ({ pop := [[cityA, cityB, cityC, cityD], [cityA, cityB, cityC, cityD]]
             best := some [cityA, cityB, cityC, cityD]
             lastBest := 0
             noImp := 0
             ints := []
             floats := []
             gints := [] } : RunState (List City) ℝ) := by
  norm_num [gaStep, sortPop, insertDesc, tspEP, buildNext, breedLoop,
    breedOne, tournamentSelect, tournRounds, clampSize, drawInt, drawFloat,
    getD_pair_zero, getD_pair_one, fit_ABCD, crossEval4]

theorem tspRun1_loop :
    runLoop tspEP 2 (tspSt0 [1, 2, 0, 0])
      = ({ pop := [[cityC, cityD, cityB, cityA], [cityA, cityD, cityB, cityC]]
           best := some [cityC, cityD, cityB, cityA]
           lastBest := 0
           noImp := 0
           ints := []
           floats := []
           gints := [] } : RunState (List City) ℝ) := by
  show runLoop tspEP (1 + 1) (tspSt0 [1, 2, 0, 0]) = _
  rw [runLoop_succ_eq, tspRun1_step1]
  show runLoop tspEP (0 + 1) _ = _
  rw [runLoop_succ_eq, tspRun1_step2]
  rfl

theorem tspRun2_loop :
    runLoop tspEP 2 (tspSt0 [])
      = ({ pop := [[cityA, cityB, cityC, cityD], [cityA, cityB, cityC, cityD]]
           best := some [cityA, cityB, cityC, cityD]
           lastBest := 0
           noImp := 0
           ints := []
           floats := []
           gints := [] } : RunState (List City) ℝ) := by
  show runLoop tspEP (1 + 1) (tspSt0 []) = _
  rw [runLoop_succ_eq, tspRun2_step1]
  show runLoop tspEP (0 + 1) _ = _
  rw [runLoop_succ_eq, tspRun2_step2]
  rfl

theorem run_tspCfg_eq (g : List Nat) :
    run tspFitness crossoverRoute tspMutate tspCfg g
      = (none,
         { tspCfg with
            population := (runLoop tspEP 2 (tspSt0 g)).pop.map some
            bestChromosome := (runLoop tspEP 2 (tspSt0 g)).best
            rngInts := (runLoop tspEP 2 (tspSt0 g)).ints
            rngFloats := (runLoop tspEP 2 (tspSt0 g)).floats },
         (runLoop tspEP 2 (tspSt0 g)).gints) := by
  unfold run
  rw [validate_tspCfg]
  rfl

/-- **C6** (counterexample): two engines with identical configurations
(`tspCfg`, four-city routes on a 3×4 rectangle) and the same explicit
seed, run one after the other: `TSPChromosome.Crossover` draws its cut
points from the process-global stream, which the first run advances, so
the first run finds the 14-long tour (best score 1/14) while the second
run, identically seeded, only reaches the 16-long tour (best score 1/16).
The best-candidate fitness scores of the two runs differ. -/
theorem identical_seed_tsp_runs_differ :
    (runTwice tspFitness crossoverRoute tspMutate tspCfg
        [1, 2, 0, 0]).1.2.1.bestChromosome.map tspFitness
      = some (1 / 14) ∧
    (runTwice tspFitness crossoverRoute tspMutate tspCfg
        [1, 2, 0, 0]).2.2.1.bestChromosome.map tspFitness
      = some (1 / 16) ∧
    some ((1 : ℝ) / 14) ≠ some (1 / 16) := by
  have h1 := run_tspCfg_eq [1, 2, 0, 0]
  have h2 := run_tspCfg_eq []
  rw [tspRun1_loop] at h1
  rw [tspRun2_loop] at h2
  refine ⟨?_, ?_, by norm_num⟩
  · show (run tspFitness crossoverRoute tspMutate tspCfg
        [1, 2, 0, 0]).2.1.bestChromosome.map tspFitness = _
    rw [h1]
    simp only [Option.map_some']
    rw [fit_CDBA]
  · show (run tspFitness crossoverRoute tspMutate tspCfg
        (run tspFitness crossoverRoute tspMutate tspCfg
          [1, 2, 0, 0]).2.2).2.1.bestChromosome.map tspFitness = _
    rw [h1]
    dsimp only
    rw [h2]
    simp only [Option.map_some']
    rw [fit_ABCD]

end MLGA
